import Mathlib

/-!
Verification of the Toy-CVRP-RL-Solver repository.

The environment is a shallow embedding of class CVRPEnv in
src/src/rl/env.py, the agent of class QLearningAgent in
src/src/rl/q_learning.py.  Python floats are modelled as rationals,
Python dicts as association lists, Python sets as lists.  The step
function of CVRPEnv can raise an UnboundLocalError in its terminal
branch (the local best_distance is read before any assignment), so the
embedded step returns the mutated environment paired with an
Option: none models the raised exception, some carries the value the
Python method returns.
-/

namespace CVRPSpec

/-- Problem instance data as consumed by CVRPEnv.__init__: the nodes and
demands dicts are split into their key lists plus a demand lookup
function, and the precomputed distance matrix is a binary function. -/
structure Instance where
  nodeKeys : List Nat
  demandKeys : List Nat
  demand : Nat → ℚ
  depot_id : Nat
  capacity : ℚ
  dist : Nat → Nat → ℚ

/-- Episode and bookkeeping state of CVRPEnv.  best_solution is split in
its two dict entries; a best distance of none models float("inf"). -/
structure CVRPEnv where
  inst : Instance
  current_node : Nat
  unvisited : List Nat
  current_load : ℚ
  current_route : List Nat
  all_routes : List (List Nat)
  total_distance : ℚ
  last_depot_visit_idx : Nat
  best_solution_routes : List (List Nat)
  best_solution_distance : Option ℚ

/-- CVRPEnv.__init__: initial episode state; best_solution starts with
empty routes and infinite distance. -/
def CVRPEnv.init (inst : Instance) : CVRPEnv where
  inst := inst
  current_node := inst.depot_id
  unvisited := inst.nodeKeys.filter (fun n => n != inst.depot_id)
  current_load := 0
  current_route := [inst.depot_id]
  all_routes := []
  total_distance := 0
  last_depot_visit_idx := 0
  best_solution_routes := []
  best_solution_distance := none

/-- CVRPEnv.reset: restores the episode fields; best_solution is kept. -/
def CVRPEnv.reset (e : CVRPEnv) : CVRPEnv :=
  { e with
    current_node := e.inst.depot_id
    unvisited := e.inst.nodeKeys.filter (fun n => n != e.inst.depot_id)
    current_load := 0
    current_route := [e.inst.depot_id]
    all_routes := []
    total_distance := 0
    last_depot_visit_idx := 0 }

/-- Hashable state tuple built by CVRPEnv.get_state. -/
abbrev EnvState := Nat × List Nat × ℚ × List Nat × Bool

/-- CVRPEnv.get_state: current node, sorted unvisited customers, load,
the active sub-route (current_route from last_depot_visit_idx on) and an
at-depot flag. -/
def CVRPEnv.get_state (e : CVRPEnv) : EnvState :=
  (e.current_node,
   e.unvisited.insertionSort (· ≤ ·),
   e.current_load,
   e.current_route.drop e.last_depot_visit_idx,
   e.current_node == e.inst.depot_id)

/-- First loop of CVRPEnv.get_valid_moves: the unvisited nodes whose
demand still fits in the remaining capacity. -/
def CVRPEnv.feasibleCustomers (e : CVRPEnv) : List Nat :=
  e.unvisited.filter
    (fun n => decide (e.current_load + e.inst.demand n ≤ e.inst.capacity))

/-- The quantity nodes_visited_since_depot of CVRPEnv.get_valid_moves
(computed over ℤ exactly as the Python int expression). -/
def CVRPEnv.nodes_visited_since_depot (e : CVRPEnv) : ℤ :=
  (e.current_route.length : ℤ) - (e.last_depot_visit_idx : ℤ) - 1

/-- The condition can_return_to_depot of CVRPEnv.get_valid_moves. -/
def CVRPEnv.can_return_to_depot (e : CVRPEnv) : Bool :=
  (e.current_node != e.inst.depot_id)
    && decide (0 < e.nodes_visited_since_depot)
    && (e.feasibleCustomers.isEmpty || e.unvisited.isEmpty)

/-- CVRPEnv.get_valid_moves: the feasible customers, with the depot
appended when can_return_to_depot holds. -/
def CVRPEnv.get_valid_moves (e : CVRPEnv) : List Nat :=
  if e.can_return_to_depot then e.feasibleCustomers ++ [e.inst.depot_id]
  else e.feasibleCustomers

/-- Mutations of CVRPEnv.step for a valid action, up to (and including)
appending the action to current_route: distance accumulation, position
update, then either load/unvisited update (customer) or load reset and
last_depot_visit_idx update (depot). -/
def CVRPEnv.applyMove (e : CVRPEnv) (action : Nat) : CVRPEnv :=
  let d := e.inst.dist e.current_node action
  let e1 := { e with total_distance := e.total_distance + d,
                     current_node := action }
  let e2 :=
    if action ≠ e.inst.depot_id then
      { e1 with current_load := e1.current_load + e.inst.demand action,
                unvisited := e1.unvisited.erase action }
    else
      { e1 with current_load := 0,
                last_depot_visit_idx := e1.current_route.length }
  { e2 with current_route := e2.current_route ++ [action] }

/-- Completion test of CVRPEnv.step: no unvisited node is left and the
vehicle is at the depot. -/
def CVRPEnv.isDone (e : CVRPEnv) : Bool :=
  e.unvisited.isEmpty && (e.current_node == e.inst.depot_id)

/-- The terminal append of CVRPEnv.step: the whole current_route is
appended to all_routes as a single element. -/
def CVRPEnv.completeRoutes (e : CVRPEnv) : CVRPEnv :=
  { e with all_routes := e.all_routes ++ [e.current_route] }

/-- Demand of a route as summed in CVRPEnv.validate_solution: the sum of
the demands of its non-depot entries. -/
def routeDemand (inst : Instance) (route : List Nat) : ℚ :=
  (route.filter (fun n => n != inst.depot_id)).foldl
    (fun s n => s + inst.demand n) 0

/-- Inner loop of CVRPEnv.validate_solution over one route: skips depot
entries, stops (reporting false) at the first client already visited,
otherwise accumulates the clients into the visited set. -/
def addClients (depotId : Nat) : List Nat → List Nat → Bool × List Nat
  | [], visited => (true, visited)
  | n :: rest, visited =>
    if n = depotId then addClients depotId rest visited
    else if n ∈ visited then (false, visited)
    else addClients depotId rest (visited ++ [n])

/-- Outer loop of CVRPEnv.validate_solution: the first three checks break
out of the loop, a duplicated client only clears the valid flag while the
loop keeps running, exactly as in the Python source. -/
def checkRoutes (inst : Instance) :
    List (List Nat) → List Nat → Bool → Bool × List Nat
  | [], visited, valid => (valid, visited)
  | route :: rest, visited, valid =>
    if ¬ (route.head? = some inst.depot_id ∧
          route.getLast? = some inst.depot_id) then (false, visited)
    else if route.length ≤ 2 then (false, visited)
    else if inst.capacity < routeDemand inst route then (false, visited)
    else
      let r := addClients inst.depot_id route visited
      checkRoutes inst rest r.2 (valid && r.1)

/-- Membership-based equality of two lists viewed as sets; models the
final comparison visited_clients != set(self.demands.keys()). -/
def listSetEq (xs ys : List Nat) : Bool :=
  xs.all (fun x => ys.contains x) && ys.all (fun y => xs.contains y)

/-- The overall valid flag computed by CVRPEnv.validate_solution. -/
def CVRPEnv.solutionValid (e : CVRPEnv) : Bool :=
  let r := checkRoutes e.inst e.all_routes [] true
  r.1 && listSetEq r.2 e.inst.demandKeys

/-- CVRPEnv.validate_solution: -1000 for an invalid solution, otherwise
1000 divided by the episode's total distance. -/
def CVRPEnv.validate_solution (e : CVRPEnv) : ℚ :=
  if e.solutionValid then 1000 / e.total_distance else -1000

/-- Comparison against the retained best distance, where none models the
initial float("inf"). -/
def ltInf (d : ℚ) : Option ℚ → Bool
  | none => true
  | some b => decide (d < b)

/-- Best-solution update in the terminal branch of CVRPEnv.step. -/
def CVRPEnv.updateBest (e : CVRPEnv) (reward : ℚ) : CVRPEnv :=
  if 0 < reward ∧ ltInf e.total_distance e.best_solution_distance then
    { e with best_solution_routes := e.all_routes,
             best_solution_distance := some e.total_distance }
  else e

/-- CVRPEnv.step.  An action outside get_valid_moves returns the
unchanged environment with (get_state, -1000, True).  A valid action is
applied with applyMove; if the episode is not complete the method
returns (get_state, -distance, False).  In the terminal branch the
Python source appends current_route to all_routes, validates, possibly
updates best_solution, and then reads the undefined local best_distance,
raising UnboundLocalError before reaching its return statement: this is
modelled by returning none together with the environment as mutated up
to that point. -/
def CVRPEnv.step (e : CVRPEnv) (action : Nat) :
    CVRPEnv × Option (EnvState × ℚ × Bool) :=
  if action ∈ e.get_valid_moves then
    let m := e.applyMove action
    if m.isDone then
      let c := m.completeRoutes
      (c.updateBest c.validate_solution, none)
    else
      (m, some (m.get_state, -(e.inst.dist e.current_node action), false))
  else
    (e, some (e.get_state, -1000, true))

/-- Environment component of a step, for iterating scenarios. -/
def CVRPEnv.stepEnv (e : CVRPEnv) (action : Nat) : CVRPEnv :=
  (e.step action).1

/-- Environments reachable by the training loop: a freshly constructed
environment, any step applied to a reachable environment (the mutated
environment is kept even when the step raises), and reset. -/
inductive Reachable : CVRPEnv → Prop
  | init (inst : Instance) : Reachable (CVRPEnv.init inst)
  | step (e : CVRPEnv) (a : Nat) : Reachable e → Reachable (e.stepEnv a)
  | reset (e : CVRPEnv) : Reachable e → Reachable e.reset

/-- Sum of demands of a list of nodes, used to state the load invariant. -/
def sumDemands (inst : Instance) (l : List Nat) : ℚ :=
  l.foldl (fun s n => s + inst.demand n) 0

/-- Induction invariant for reachable environments: the load is the sum
of the demands of the nodes recorded after the last depot visit, it
stays within a non-negative capacity, the last depot visit index points
into the route, and the depot is never listed as unvisited. -/
def EnvInv (e : CVRPEnv) : Prop :=
  e.current_load =
      sumDemands e.inst (e.current_route.drop (e.last_depot_visit_idx + 1)) ∧
    (0 ≤ e.inst.capacity → e.current_load ≤ e.inst.capacity) ∧
    e.last_depot_visit_idx < e.current_route.length ∧
    e.inst.depot_id ∉ e.unvisited

/-! Association-list primitives modelling Python dict reads and writes
(dict keys are unique, so replacing every matching key is the same as
replacing the single entry). -/

/-- Dict read: value stored under the first occurrence of the key. -/
def alookup {κ β : Type} [DecidableEq κ] : List (κ × β) → κ → Option β
  | [], _ => none
  | p :: l, k => if p.1 = k then some p.2 else alookup l k

/-- Replacement of the value stored under a key. -/
def areplace {κ β : Type} [DecidableEq κ] (l : List (κ × β)) (k : κ)
    (b : β) : List (κ × β) :=
  l.map (fun p => if p.1 = k then (k, b) else p)

/-- Dict assignment d[k] = b: replaces the entry when the key is
present, otherwise appends a new entry. -/
def upsert {κ β : Type} [DecidableEq κ] (l : List (κ × β)) (k : κ)
    (b : β) : List (κ × β) :=
  if (alookup l k).isSome then areplace l k b else l ++ [(k, b)]

/-- The nested dict self.q_table: states to (actions to values). -/
abbrev QTable (σ α : Type) := List (σ × List (α × ℚ))

/-- State of class QLearningAgent in src/src/rl/q_learning.py. -/
structure QLearningAgent (σ α : Type) where
  q_table : QTable σ α
  lr : ℚ
  gamma : ℚ
  epsilon : ℚ
  epsilon_decay : ℚ
  epsilon_min : ℚ
  total_actions : Nat
  last_action : Option α
  consecutive_same_actions : Nat
  max_consecutive_actions : Nat

section Agent

variable {σ α : Type} [DecidableEq σ] [DecidableEq α]

/-- The statement if state not in self.q_table: self.q_table[state] = {},
performed by get_q_value and update before accessing a row. -/
def ensureState (t : QTable σ α) (s : σ) : QTable σ α :=
  if (alookup t s).isSome then t else t ++ [(s, [])]

/-- Row of a state in the table, empty when absent (only read after
ensureState, where the state is always present). -/
def stateRow (t : QTable σ α) (s : σ) : List (α × ℚ) :=
  (alookup t s).getD []

/-- QLearningAgent.get_q_value: inserts an empty row for an unseen
state, then inserts the default 0.0 for an unseen action, and returns
the new table together with the stored value. -/
def get_q_value (t : QTable σ α) (s : σ) (a : α) : QTable σ α × ℚ :=
  match alookup (stateRow (ensureState t s) s) a with
  | some v => (ensureState t s, v)
  | none =>
    (upsert (ensureState t s) s (stateRow (ensureState t s) s ++ [(a, 0)]), 0)

/-- Pure dict lookup of a Q-value, without the defaulting side effect. -/
def qlookup (t : QTable σ α) (s : σ) (a : α) : Option ℚ :=
  (alookup t s).bind (fun m => alookup m a)

/-- Stored Q-value, defaulted to 0 when the pair was never written. -/
def qlookupOr0 (t : QTable σ α) (s : σ) (a : α) : ℚ :=
  (qlookup t s a).getD 0

/-- Sequence of get_q_value reads over one state, threading the table,
as performed by the comprehensions in choose_action and update. -/
def readMany (t : QTable σ α) (s : σ) : List α → QTable σ α × List ℚ
  | [] => (t, [])
  | a :: rest =>
    ((readMany (get_q_value t s a).1 s rest).1,
     (get_q_value t s a).2 :: (readMany (get_q_value t s a).1 s rest).2)

/-- Python max over a list of numbers (0 for the empty list, which the
callers rule out). -/
def listMax : List ℚ → ℚ
  | [] => 0
  | x :: xs => xs.foldl max x

/-- Table state after computing the bootstrap values in update: the
reads happen only when next_valid_moves is non-empty. -/
def bootTable (t : QTable σ α) (s2 : σ) (moves2 : List α) : QTable σ α :=
  if moves2.isEmpty then t else (readMany t s2 moves2).1

/-- Bootstrap target computed by update: 0 without next moves, else the
Python max of the values read for next_state over next_valid_moves. -/
def bootMax (t : QTable σ α) (s2 : σ) (moves2 : List α) : ℚ :=
  if moves2.isEmpty then 0
  else if (readMany t s2 moves2).2.isEmpty then 0
  else listMax (readMany t s2 moves2).2

/-- The two final statements of update: ensure the state row exists,
then assign q_table[state][action] = value. -/
def writeQ (t : QTable σ α) (s : σ) (a : α) (v : ℚ) : QTable σ α :=
  upsert (ensureState t s) s (upsert (stateRow (ensureState t s) s) a v)

/-- QLearningAgent.update: bootstrap target from next_state and
next_valid_moves (0 when there are none), then the Q-learning update
rule written to q_table[state][action]. -/
def update (ag : QLearningAgent σ α) (s : σ) (a : α) (reward : ℚ)
    (s2 : σ) (moves2 : List α) : QLearningAgent σ α :=
  { ag with q_table :=
      (writeQ (get_q_value (bootTable ag.q_table s2 moves2) s a).1 s a
        ((get_q_value (bootTable ag.q_table s2 moves2) s a).2 +
          ag.lr * (reward + ag.gamma * bootMax ag.q_table s2 moves2 -
            (get_q_value (bootTable ag.q_table s2 moves2) s a).2))) }

/-- Repeated application of update with one fixed transition. -/
def updateIter (ag : QLearningAgent σ α) (s : σ) (a : α) (reward : ℚ)
    (s2 : σ) (moves2 : List α) : Nat → QLearningAgent σ α
  | 0 => ag
  | n + 1 => update (updateIter ag s a reward s2 moves2 n) s a reward s2 moves2

/-- Bootstrap target over the original table, used to state the update
rule: maximum stored-or-default value of next_state over its legal
actions, or 0 when there are none. -/
def bootstrapOf (t : QTable σ α) (s2 : σ) (moves2 : List α) : ℚ :=
  if moves2.isEmpty then 0
  else listMax (moves2.map (fun b => qlookupOr0 t s2 b))

/-- Fixed point reward + discount_factor * bootstrap of the update
rule. -/
def targetOf (t : QTable σ α) (gamma reward : ℚ) (s2 : σ)
    (moves2 : List α) : ℚ :=
  reward + gamma * bootstrapOf t s2 moves2

/-- Python max(items, key=value) over (action, value) pairs: the first
pair of maximal value; none only for the empty list. -/
def argmaxFirst {γ : Type} : List (γ × ℚ) → Option γ
  | [] => none
  | p :: rest => some ((rest.foldl (fun b q => if b.2 < q.2 then q else b) p).1)

/-- QLearningAgent.choose_action.  The epsilon-greedy random draw and
random.choice are modelled by the oracle inputs: explore stands for
np.random.random() lt epsilon, and pick selects the explored action.
In exploitation, q_values is read through get_q_value (mutating the
table), the anti-repetition penalty is applied to the temporary list
only, and the first action of maximal value is chosen. -/
def choose_action (ag : QLearningAgent σ α) (explore : Bool) (pick : Nat)
    (s : σ) (valid_moves : List α) : QLearningAgent σ α × Option α :=
  let ag1 := { ag with total_actions := ag.total_actions + 1 }
  if valid_moves.isEmpty then (ag1, none)
  else if explore then
    match valid_moves.get? (pick % valid_moves.length) with
    | none => (ag1, none)
    | some a =>
      ({ ag1 with
          consecutive_same_actions :=
            if some a = ag1.last_action then ag1.consecutive_same_actions + 1
            else 0,
          last_action := some a }, some a)
  else
    let r := readMany ag1.q_table s valid_moves
    let q_values := valid_moves.zip r.2
    let q_values2 :=
      if (match ag1.last_action with
          | some la =>
            decide (la ∈ valid_moves)
              && decide (ag1.max_consecutive_actions ≤
                          ag1.consecutive_same_actions)
          | none => false) then
        q_values.map
          (fun p => if some p.1 = ag1.last_action then (p.1, p.2 - 1000) else p)
      else q_values
    match argmaxFirst q_values2 with
    | none => ({ ag1 with q_table := r.1 }, none)
    | some best =>
      ({ ag1 with
          q_table := r.1,
          consecutive_same_actions :=
            if some best = ag1.last_action then
              ag1.consecutive_same_actions + 1
            else 0,
          last_action := some best }, some best)

end Agent

/-! Concrete data used by the witnesses and counterexamples. -/

/-- The 4-node instance of the spec's concrete scenario: depot 0,
customers 1, 2, 3 with demands 3, 4, 5, capacity 10.  The routing and
validation behaviour under scrutiny does not depend on the distance
values, so a unit off-diagonal matrix stands in for the Euclidean one. -/
def scenInst : Instance where
  nodeKeys := [0, 1, 2, 3]
  demandKeys := [0, 1, 2, 3]
  demand := fun n => if n = 1 then 3 else if n = 2 then 4 else if n = 3 then 5 else 0
  depot_id := 0
  capacity := 10
  dist := fun i j => if i = j then 0 else 1

/-- Fresh environment on the 4-node scenario instance. -/
def scen0 : CVRPEnv := CVRPEnv.init scenInst

/-- Scenario environment after stepping to customer 1. -/
def scenA : CVRPEnv where
  inst := scenInst
  current_node := 1
  unvisited := [2, 3]
  current_load := 3
  current_route := [0, 1]
  all_routes := []
  total_distance := 1
  last_depot_visit_idx := 0
  best_solution_routes := []
  best_solution_distance := none

/-- Scenario environment after further stepping to customer 2. -/
def scenB : CVRPEnv where
  inst := scenInst
  current_node := 2
  unvisited := [3]
  current_load := 7
  current_route := [0, 1, 2]
  all_routes := []
  total_distance := 2
  last_depot_visit_idx := 0
  best_solution_routes := []
  best_solution_distance := none

/-- Scenario environment after the intermediate return to the depot. -/
def scenC : CVRPEnv where
  inst := scenInst
  current_node := 0
  unvisited := [3]
  current_load := 0
  current_route := [0, 1, 2, 0]
  all_routes := []
  total_distance := 3
  last_depot_visit_idx := 3
  best_solution_routes := []
  best_solution_distance := none

/-- Scenario environment after stepping to customer 3. -/
def scenD : CVRPEnv where
  inst := scenInst
  current_node := 3
  unvisited := []
  current_load := 5
  current_route := [0, 1, 2, 0, 3]
  all_routes := []
  total_distance := 4
  last_depot_visit_idx := 3
  best_solution_routes := []
  best_solution_distance := none

/-- Scenario environment as mutated by the final (terminal) step. -/
def scenF : CVRPEnv where
  inst := scenInst
  current_node := 0
  unvisited := []
  current_load := 0
  current_route := [0, 1, 2, 0, 3, 0]
  all_routes := [[0, 1, 2, 0, 3, 0]]
  total_distance := 5
  last_depot_visit_idx := 5
  best_solution_routes := []
  best_solution_distance := none

/-- Environment holding the fully valid two-sub-route solution of the
concrete scenario, as validate_solution would have to see it: routes
[0,1,2,0] and [0,3,0], every customer served exactly once, per-route
demands 7 and 5 within capacity 10. -/
def c1Env : CVRPEnv where
  inst := scenInst
  current_node := 0
  unvisited := []
  current_load := 0
  current_route := [0, 3, 0]
  all_routes := [[0, 1, 2, 0], [0, 3, 0]]
  total_distance := 6
  last_depot_visit_idx := 1
  best_solution_routes := []
  best_solution_distance := none

/-- Two-node instance whose demands dict has no depot entry, so the
final comparison of validate_solution can succeed. -/
def c8Inst : Instance where
  nodeKeys := [0, 1]
  demandKeys := [1]
  demand := fun n => if n = 1 then 3 else 0
  depot_id := 0
  capacity := 10
  dist := fun i j => if i = j then 0 else 2

/-- Completed valid single-route episode of total distance 4. -/
def c8EnvA : CVRPEnv where
  inst := c8Inst
  current_node := 0
  unvisited := []
  current_load := 0
  current_route := [0, 1, 0]
  all_routes := [[0, 1, 0]]
  total_distance := 4
  last_depot_visit_idx := 2
  best_solution_routes := []
  best_solution_distance := none

/-- Same completed episode but with a larger total distance. -/
def c8EnvB : CVRPEnv := { c8EnvA with total_distance := 8 }

/-- Invalid completed episode: no sub-route at all, customer 1 unserved. -/
def c8EnvC : CVRPEnv := { c8EnvA with all_routes := [] }

/-- Concrete agent over Nat states and actions used by the witnesses. -/
def agW : QLearningAgent Nat Nat where
  q_table := []
  lr := 1/2
  gamma := 1/2
  epsilon := 1
  epsilon_decay := 1
  epsilon_min := 0
  total_actions := 0
  last_action := none
  consecutive_same_actions := 0
  max_consecutive_actions := 3

/-- Agent with one stored Q-value, for the frame-effect witness. -/
def ag10 : QLearningAgent Nat Nat :=
  { agW with q_table := [(2, [(9, 5)])] }

/-! Helper lemmas about the environment. -/

lemma step_of_not_mem (e : CVRPEnv) (a : Nat) (h : a ∉ e.get_valid_moves) :
    e.step a = (e, some (e.get_state, -1000, true)) := by
  simp [CVRPEnv.step, h]

lemma step_of_mem_done (e : CVRPEnv) (a : Nat) (h : a ∈ e.get_valid_moves)
    (hd : (e.applyMove a).isDone = true) :
    e.step a = ((e.applyMove a).completeRoutes.updateBest
      (e.applyMove a).completeRoutes.validate_solution, none) := by
  simp [CVRPEnv.step, h, hd]

lemma step_of_mem_not_done (e : CVRPEnv) (a : Nat) (h : a ∈ e.get_valid_moves)
    (hd : (e.applyMove a).isDone = false) :
    e.step a = (e.applyMove a, some ((e.applyMove a).get_state,
      -(e.inst.dist e.current_node a), false)) := by
  simp [CVRPEnv.step, h, hd]

lemma applyMove_inst (e : CVRPEnv) (a : Nat) : (e.applyMove a).inst = e.inst := by
  unfold CVRPEnv.applyMove
  split <;> rfl

lemma applyMove_current_node (e : CVRPEnv) (a : Nat) :
    (e.applyMove a).current_node = a := by
  unfold CVRPEnv.applyMove
  split <;> rfl

lemma applyMove_unvisited (e : CVRPEnv) (a : Nat) :
    (e.applyMove a).unvisited =
      if a = e.inst.depot_id then e.unvisited else e.unvisited.erase a := by
  unfold CVRPEnv.applyMove
  split <;> rename_i h
  · simp [h]
  · rw [ne_eq, not_not] at h
    simp [h]

lemma applyMove_current_route (e : CVRPEnv) (a : Nat) :
    (e.applyMove a).current_route = e.current_route ++ [a] := by
  unfold CVRPEnv.applyMove
  split <;> rfl

lemma applyMove_current_load (e : CVRPEnv) (a : Nat) :
    (e.applyMove a).current_load =
      if a = e.inst.depot_id then 0
      else e.current_load + e.inst.demand a := by
  unfold CVRPEnv.applyMove
  split <;> rename_i h
  · simp [h]
  · rw [ne_eq, not_not] at h
    simp [h]

lemma applyMove_idx (e : CVRPEnv) (a : Nat) :
    (e.applyMove a).last_depot_visit_idx =
      if a = e.inst.depot_id then e.current_route.length
      else e.last_depot_visit_idx := by
  unfold CVRPEnv.applyMove
  split <;> rename_i h
  · simp [h]
  · rw [ne_eq, not_not] at h
    simp [h]

lemma applyMove_best_routes (e : CVRPEnv) (a : Nat) :
    (e.applyMove a).best_solution_routes = e.best_solution_routes := by
  unfold CVRPEnv.applyMove
  split <;> rfl

lemma applyMove_best_distance (e : CVRPEnv) (a : Nat) :
    (e.applyMove a).best_solution_distance = e.best_solution_distance := by
  unfold CVRPEnv.applyMove
  split <;> rfl

lemma updateBest_of_pos (e : CVRPEnv) (r : ℚ)
    (h : 0 < r ∧ ltInf e.total_distance e.best_solution_distance = true) :
    e.updateBest r =
      { e with best_solution_routes := e.all_routes,
               best_solution_distance := some e.total_distance } := by
  simp [CVRPEnv.updateBest, h.1, h.2]

lemma updateBest_of_neg (e : CVRPEnv) (r : ℚ)
    (h : ¬ (0 < r ∧ ltInf e.total_distance e.best_solution_distance = true)) :
    e.updateBest r = e := by
  simp only [CVRPEnv.updateBest, if_neg h]

lemma updateBest_episode_fields (e : CVRPEnv) (r : ℚ) :
    (e.updateBest r).inst = e.inst ∧
    (e.updateBest r).current_node = e.current_node ∧
    (e.updateBest r).unvisited = e.unvisited ∧
    (e.updateBest r).current_load = e.current_load ∧
    (e.updateBest r).current_route = e.current_route ∧
    (e.updateBest r).last_depot_visit_idx = e.last_depot_visit_idx := by
  unfold CVRPEnv.updateBest
  split <;> exact ⟨rfl, rfl, rfl, rfl, rfl, rfl⟩

/-! Helper lemmas evaluating the concrete 4-node scenario. -/

lemma scen0_moves : scen0.get_valid_moves = [1, 2, 3] := by
  norm_num [scen0, scenInst, CVRPEnv.init, CVRPEnv.get_valid_moves,
    CVRPEnv.can_return_to_depot, CVRPEnv.feasibleCustomers,
    CVRPEnv.nodes_visited_since_depot, List.filter]

lemma scen_step1 : scen0.stepEnv 1 = scenA := by
  norm_num [scen0, scenInst, scenA, CVRPEnv.init, CVRPEnv.stepEnv, CVRPEnv.step,
    CVRPEnv.get_valid_moves, CVRPEnv.can_return_to_depot, CVRPEnv.feasibleCustomers,
    CVRPEnv.nodes_visited_since_depot, CVRPEnv.applyMove, CVRPEnv.isDone,
    List.filter, List.erase]
  all_goals decide

lemma scen_step2 : scenA.stepEnv 2 = scenB := by
  norm_num [scenA, scenB, scenInst, CVRPEnv.stepEnv, CVRPEnv.step,
    CVRPEnv.get_valid_moves, CVRPEnv.can_return_to_depot, CVRPEnv.feasibleCustomers,
    CVRPEnv.nodes_visited_since_depot, CVRPEnv.applyMove, CVRPEnv.isDone,
    List.filter, List.erase]

lemma scen_step3 : scenB.stepEnv 0 = scenC := by
  norm_num [scenB, scenC, scenInst, CVRPEnv.stepEnv, CVRPEnv.step,
    CVRPEnv.get_valid_moves, CVRPEnv.can_return_to_depot, CVRPEnv.feasibleCustomers,
    CVRPEnv.nodes_visited_since_depot, CVRPEnv.applyMove, CVRPEnv.isDone,
    List.filter, List.erase]

lemma scen_step4 : scenC.stepEnv 3 = scenD := by
  norm_num [scenC, scenD, scenInst, CVRPEnv.stepEnv, CVRPEnv.step,
    CVRPEnv.get_valid_moves, CVRPEnv.can_return_to_depot, CVRPEnv.feasibleCustomers,
    CVRPEnv.nodes_visited_since_depot, CVRPEnv.applyMove, CVRPEnv.isDone,
    List.filter, List.erase]

lemma scen_step5 : scenD.step 0 = (scenF, none) := by
  norm_num [scenD, scenF, scenInst, CVRPEnv.step,
    CVRPEnv.get_valid_moves, CVRPEnv.can_return_to_depot, CVRPEnv.feasibleCustomers,
    CVRPEnv.nodes_visited_since_depot, CVRPEnv.applyMove, CVRPEnv.isDone,
    CVRPEnv.completeRoutes, CVRPEnv.updateBest, CVRPEnv.validate_solution,
    CVRPEnv.solutionValid, checkRoutes, addClients, routeDemand, listSetEq,
    List.filter_cons, List.filter_nil, ltInf]

/-- C2: for every environment and every action outside the current
valid-move set, step returns the unchanged state representation, the
fixed penalty -1000 and done = true, and leaves every field of the
environment unchanged (the returned environment is the input itself). -/
theorem c2_invalid_action_is_terminal_noop (e : CVRPEnv) (a : Nat)
    (h : a ∉ e.get_valid_moves) :
    e.step a = (e, some (e.get_state, -1000, true)) :=
  step_of_not_mem e a h

/-- C2 witness: at the freshly initialised 4-node scenario environment
the depot itself is not a valid move, and stepping to it leaves the
environment unchanged with reward -1000 and done = true. -/
theorem c2_invalid_action_is_terminal_noop_witness :
    0 ∉ scen0.get_valid_moves ∧
      scen0.step 0 = (scen0, some (scen0.get_state, -1000, true)) := by
  have h : 0 ∉ scen0.get_valid_moves := by
    rw [scen0_moves]; decide
  exact ⟨h, c2_invalid_action_is_terminal_noop scen0 0 h⟩

/-- C3: evaluation of the concrete 4-node scenario
depot, 1, 2, depot, 3, depot on the code.  No sub-route is recorded at
the intermediate depot return; the terminal step appends the whole
episode walk [0,1,2,0,3,0] to all_routes as a single route (so
all_routes differs from the claimed pair [0,1,2,0], [0,3,0]) and then
raises UnboundLocalError (modelled by none) instead of returning
done = true. -/
theorem c3_subroutes_not_split_eval :
    ((((scen0.stepEnv 1).stepEnv 2).stepEnv 0).stepEnv 3).step 0 = (scenF, none) ∧
      scenC.all_routes = [] ∧
      scenF.all_routes = [[0, 1, 2, 0, 3, 0]] ∧
      scenF.all_routes ≠ [[0, 1, 2, 0], [0, 3, 0]] := by
  rw [scen_step1, scen_step2, scen_step3, scen_step4, scen_step5]
  exact ⟨rfl, rfl, rfl, by decide⟩

/-- C4 counterexample: stepping with the invalid action 0 from the fresh
scenario environment returns done = true although the unvisited set
[1, 2, 3] is not empty, so done = true is not equivalent to the
completion configuration. -/
theorem c4_done_iff_counterexample :
    (scen0.step 0).2.map (fun r => r.2.2) = some true ∧
      (scen0.step 0).1.unvisited = [1, 2, 3] := by
  have h : 0 ∉ scen0.get_valid_moves := by
    rw [scen0_moves]; decide
  rw [step_of_not_mem scen0 0 h]
  constructor
  · rfl
  · decide

/-- C4 amended: for a step with a valid action, the terminal branch (in
which the Python code raises before returning, modelled by none) is
reached exactly when the action is the depot and unvisited is already
empty; every normally returned transition for a valid action carries
done = false.  An invalid action instead returns done = true regardless
of the configuration. -/
theorem c4_done_iff_amended (e : CVRPEnv) (a : Nat)
    (h : a ∈ e.get_valid_moves) :
    ((e.step a).2 = none ↔ (a = e.inst.depot_id ∧ e.unvisited = [])) ∧
      (∀ p ∈ (e.step a).2, p.2.2 = false) := by
  by_cases hd : (e.applyMove a).isDone = true
  · rw [step_of_mem_done e a h hd]
    have hnode := applyMove_current_node e a
    have hunv := applyMove_unvisited e a
    rw [CVRPEnv.isDone, Bool.and_eq_true, beq_iff_eq, applyMove_inst,
      List.isEmpty_iff, hnode, hunv] at hd
    have hdep : a = e.inst.depot_id := hd.2
    refine ⟨⟨fun _ => ⟨hdep, ?_⟩, fun _ => rfl⟩, by simp⟩
    have := hd.1
    rwa [if_pos hdep] at this
  · rw [Bool.not_eq_true] at hd
    rw [step_of_mem_not_done e a h hd]
    refine ⟨⟨fun hc => by exact absurd hc (by simp), fun hc => ?_⟩, ?_⟩
    · exfalso
      rw [CVRPEnv.isDone, applyMove_inst, applyMove_current_node,
        applyMove_unvisited, hc.1] at hd
      simp [hc.2] at hd
    · intro p hp
      simp only [Option.mem_def, Option.some.injEq] at hp
      rw [hp.symm]

/-- C4 amended witness: from the fresh scenario environment, action 1 is
valid, the step returns normally (customer move), and the terminal
equivalence is instantiated. -/
theorem c4_done_iff_amended_witness :
    1 ∈ scen0.get_valid_moves ∧
      ((scen0.step 1).2 = none ↔ (1 = scen0.inst.depot_id ∧ scen0.unvisited = [])) := by
  have h : 1 ∈ scen0.get_valid_moves := by
    rw [scen0_moves]; decide
  exact ⟨h, (c4_done_iff_amended scen0 1 h).1⟩

/-- C1: evaluation of validate_solution on the fully valid two-sub-route
solution of the 4-node scenario.  Every condition of the claim holds:
both routes start and end at the depot, visit at least one customer and
stay within capacity, no customer is repeated, and the customers covered
are exactly [1, 2, 3] (all nodes except the depot).  The code still
returns the -1000 penalty, because its final check compares the visited
customers against all keys of the demands dict, which include the
depot. -/
theorem c1_valid_solution_rejected_eval :
    c1Env.all_routes = [[0, 1, 2, 0], [0, 3, 0]] ∧
    ([0, 1, 2, 0] : List Nat).head? = some 0 ∧
    ([0, 1, 2, 0] : List Nat).getLast? = some 0 ∧
    ([0, 3, 0] : List Nat).head? = some 0 ∧
    ([0, 3, 0] : List Nat).getLast? = some 0 ∧
    2 < ([0, 1, 2, 0] : List Nat).length ∧
    2 < ([0, 3, 0] : List Nat).length ∧
    routeDemand c1Env.inst [0, 1, 2, 0] ≤ c1Env.inst.capacity ∧
    routeDemand c1Env.inst [0, 3, 0] ≤ c1Env.inst.capacity ∧
    (c1Env.all_routes.map (fun r => r.filter (fun n => n != 0))).flatten = [1, 2, 3] ∧
    c1Env.inst.nodeKeys.filter (fun n => n != c1Env.inst.depot_id) = [1, 2, 3] ∧
    c1Env.validate_solution = -1000 ∧
    ¬ (0 < c1Env.validate_solution) := by
  refine ⟨rfl, rfl, rfl, rfl, rfl, by decide, by decide, ?_, ?_, by decide, by decide, ?_, ?_⟩
  · norm_num [c1Env, scenInst, routeDemand, List.filter_cons, List.filter_nil]
  · norm_num [c1Env, scenInst, routeDemand, List.filter_cons, List.filter_nil]
  · norm_num [c1Env, scenInst, CVRPEnv.validate_solution, CVRPEnv.solutionValid,
      checkRoutes, addClients, routeDemand, listSetEq,
      List.filter_cons, List.filter_nil]
  · norm_num [c1Env, scenInst, CVRPEnv.validate_solution, CVRPEnv.solutionValid,
      checkRoutes, addClients, routeDemand, listSetEq,
      List.filter_cons, List.filter_nil]

/-- C5: characterisation of the best-solution bookkeeping of step.  The
retained best solution becomes the completed routes and their total
distance exactly when the action is valid, the episode completes, the
validation reward is positive and the total distance beats the best
recorded so far; in every other case both retained fields are those of
the input environment. -/
theorem c5_best_solution_update (e : CVRPEnv) (a : Nat) :
    ((e.step a).1.best_solution_routes, (e.step a).1.best_solution_distance) =
      if a ∈ e.get_valid_moves ∧ (e.applyMove a).isDone = true ∧
         0 < (e.applyMove a).completeRoutes.validate_solution ∧
         ltInf (e.applyMove a).completeRoutes.total_distance
               (e.applyMove a).completeRoutes.best_solution_distance = true
      then ((e.applyMove a).completeRoutes.all_routes,
            some (e.applyMove a).completeRoutes.total_distance)
      else (e.best_solution_routes, e.best_solution_distance) := by
  by_cases hm : a ∈ e.get_valid_moves
  · by_cases hd : (e.applyMove a).isDone = true
    · rw [step_of_mem_done e a hm hd]
      by_cases hv : 0 < (e.applyMove a).completeRoutes.validate_solution ∧
          ltInf (e.applyMove a).completeRoutes.total_distance
                (e.applyMove a).completeRoutes.best_solution_distance = true
      · rw [updateBest_of_pos _ _ hv, if_pos ⟨hm, hd, hv.1, hv.2⟩]
      · rw [updateBest_of_neg _ _ hv, if_neg (by tauto)]
        simp [CVRPEnv.completeRoutes, applyMove_best_routes, applyMove_best_distance]
    · rw [Bool.not_eq_true] at hd
      rw [step_of_mem_not_done e a hm hd,
        if_neg (by rw [hd]; tauto)]
      simp [applyMove_best_routes, applyMove_best_distance]
  · rw [step_of_not_mem e a hm, if_neg (by tauto)]

/-- C8: rewards of valid terminal solutions are the fixed numerator 1000
divided by the total distance, strictly positive and strictly decreasing
in total distance, and any invalid solution gets the smaller fixed
penalty -1000. -/
theorem c8_reward_monotone (e1 e2 e3 : CVRPEnv)
    (h1 : e1.solutionValid = true) (h2 : e2.solutionValid = true)
    (h3 : e3.solutionValid = false)
    (hd1 : 0 < e1.total_distance)
    (hlt : e1.total_distance < e2.total_distance) :
    e1.validate_solution = 1000 / e1.total_distance ∧
    0 < e1.validate_solution ∧ 0 < e2.validate_solution ∧
    e2.validate_solution < e1.validate_solution ∧
    e3.validate_solution = -1000 ∧
    e3.validate_solution < e2.validate_solution := by
  have hd2 : 0 < e2.total_distance := hd1.trans hlt
  rw [CVRPEnv.validate_solution, CVRPEnv.validate_solution,
    CVRPEnv.validate_solution, if_pos h1, if_pos h2, if_neg (by simp [h3])]
  have hp2 : 0 < (1000 : ℚ) / e2.total_distance :=
    div_pos (by norm_num) hd2
  refine ⟨rfl, div_pos (by norm_num) hd1, hp2,
    div_lt_div_of_pos_left (by norm_num) hd1 hlt, rfl, by linarith⟩

/-- C8 witness: two completed valid single-route episodes of total
distances 4 and 8 on the two-node instance, and an invalid episode; the
rewards are 250 and 125, ordered as the claim states, above -1000. -/
theorem c8_reward_monotone_witness :
    c8EnvA.solutionValid = true ∧ c8EnvB.solutionValid = true ∧
    c8EnvC.solutionValid = false ∧
    (0 : ℚ) < c8EnvA.total_distance ∧
    c8EnvA.total_distance < c8EnvB.total_distance ∧
    (c8EnvA.validate_solution = 1000 / c8EnvA.total_distance ∧
     0 < c8EnvA.validate_solution ∧ 0 < c8EnvB.validate_solution ∧
     c8EnvB.validate_solution < c8EnvA.validate_solution ∧
     c8EnvC.validate_solution = -1000 ∧
     c8EnvC.validate_solution < c8EnvB.validate_solution) := by
  have h1 : c8EnvA.solutionValid = true := by
    norm_num [c8EnvA, c8Inst, CVRPEnv.solutionValid, checkRoutes, addClients,
      routeDemand, listSetEq, List.filter_cons, List.filter_nil]
  have h2 : c8EnvB.solutionValid = true := by
    norm_num [c8EnvB, c8EnvA, c8Inst, CVRPEnv.solutionValid, checkRoutes,
      addClients, routeDemand, listSetEq, List.filter_cons, List.filter_nil]
  have h3 : c8EnvC.solutionValid = false := by
    norm_num [c8EnvC, c8EnvA, c8Inst, CVRPEnv.solutionValid, checkRoutes,
      addClients, routeDemand, listSetEq, List.filter_cons, List.filter_nil]
  have hd1 : (0 : ℚ) < c8EnvA.total_distance := by norm_num [c8EnvA]
  have hlt : c8EnvA.total_distance < c8EnvB.total_distance := by
    norm_num [c8EnvB, c8EnvA]
  exact ⟨h1, h2, h3, hd1, hlt,
    c8_reward_monotone c8EnvA c8EnvB c8EnvC h1 h2 h3 hd1 hlt⟩

/-! Valid-move characterisation and the reachability invariant. -/

lemma mem_feasible_iff (e : CVRPEnv) (a : Nat) :
    a ∈ e.feasibleCustomers ↔
      a ∈ e.unvisited ∧ e.current_load + e.inst.demand a ≤ e.inst.capacity := by
  simp [CVRPEnv.feasibleCustomers, List.mem_filter]

lemma can_return_iff (e : CVRPEnv) :
    e.can_return_to_depot = true ↔
      (e.current_node ≠ e.inst.depot_id ∧ 0 < e.nodes_visited_since_depot ∧
        (e.feasibleCustomers = [] ∨ e.unvisited = [])) := by
  simp [CVRPEnv.can_return_to_depot, List.isEmpty_iff, and_assoc]

lemma mem_valid_moves_iff (e : CVRPEnv) (a : Nat) :
    a ∈ e.get_valid_moves ↔
      (a ∈ e.feasibleCustomers ∨
        (a = e.inst.depot_id ∧ e.can_return_to_depot = true)) := by
  unfold CVRPEnv.get_valid_moves
  by_cases hc : e.can_return_to_depot = true
  · rw [if_pos hc]
    simp [hc]
  · rw [if_neg hc]
    simp [hc]

lemma load_le_of_customer_move (e : CVRPEnv) (a : Nat)
    (hm : a ∈ e.get_valid_moves) (hdep : a ≠ e.inst.depot_id) :
    a ∈ e.unvisited ∧ e.current_load + e.inst.demand a ≤ e.inst.capacity := by
  rcases (mem_valid_moves_iff e a).1 hm with hf | hr
  · exact (mem_feasible_iff e a).1 hf
  · exact absurd hr.1 hdep

lemma sumDemands_append (inst : Instance) (l : List Nat) (a : Nat) :
    sumDemands inst (l ++ [a]) = sumDemands inst l + inst.demand a := by
  simp [sumDemands, List.foldl_append]

lemma envInv_init (inst : Instance) : EnvInv (CVRPEnv.init inst) := by
  refine ⟨rfl, fun h => h, by simp [CVRPEnv.init], ?_⟩
  simp [CVRPEnv.init, List.mem_filter]

lemma envInv_reset (e : CVRPEnv) : EnvInv e.reset := by
  refine ⟨rfl, fun h => h, by simp [CVRPEnv.reset], ?_⟩
  simp [CVRPEnv.reset, List.mem_filter]

lemma envInv_applyMove (e : CVRPEnv) (a : Nat)
    (hm : a ∈ e.get_valid_moves) (h : EnvInv e) : EnvInv (e.applyMove a) := by
  obtain ⟨hA, hB, hC, hD⟩ := h
  by_cases hdep : a = e.inst.depot_id
  · refine ⟨?_, fun hcap => ?_, ?_, ?_⟩
    · rw [applyMove_current_load, applyMove_idx, applyMove_current_route,
        applyMove_inst, if_pos hdep, if_pos hdep,
        List.drop_eq_nil_of_le (by simp)]
      rfl
    · rw [applyMove_current_load, applyMove_inst, if_pos hdep]
      rwa [applyMove_inst] at hcap
    · rw [applyMove_idx, applyMove_current_route, if_pos hdep,
        List.length_append]
      simp
    · rw [applyMove_unvisited, applyMove_inst, if_pos hdep]
      exact hdep ▸ hD
  · obtain ⟨hmem, hle⟩ := load_le_of_customer_move e a hm hdep
    refine ⟨?_, fun _ => ?_, ?_, ?_⟩
    · rw [applyMove_current_load, applyMove_idx, applyMove_current_route,
        applyMove_inst, if_neg hdep, if_neg hdep,
        List.drop_append_of_le_length hC, sumDemands_append, hA]
    · rw [applyMove_current_load, applyMove_inst, if_neg hdep]
      exact hle
    · rw [applyMove_idx, applyMove_current_route, if_neg hdep,
        List.length_append]
      exact Nat.lt_of_lt_of_le hC (by simp)
    · rw [applyMove_unvisited, applyMove_inst, if_neg hdep]
      intro hmem2
      exact hD (List.mem_of_mem_erase hmem2)

lemma envInv_updateBest (e : CVRPEnv) (r : ℚ) :
    EnvInv (e.updateBest r) ↔ EnvInv e := by
  unfold CVRPEnv.updateBest
  split
  · exact Iff.rfl
  · exact Iff.rfl

lemma envInv_completeRoutes (e : CVRPEnv) :
    EnvInv e.completeRoutes ↔ EnvInv e := Iff.rfl

lemma envInv_stepEnv (e : CVRPEnv) (a : Nat) (h : EnvInv e) :
    EnvInv (e.stepEnv a) := by
  unfold CVRPEnv.stepEnv
  by_cases hm : a ∈ e.get_valid_moves
  · by_cases hd : (e.applyMove a).isDone = true
    · rw [step_of_mem_done e a hm hd]
      exact (envInv_updateBest _ _).2 ((envInv_completeRoutes _).2
        (envInv_applyMove e a hm h))
    · rw [Bool.not_eq_true] at hd
      rw [step_of_mem_not_done e a hm hd]
      exact envInv_applyMove e a hm h
  · rw [step_of_not_mem e a hm]
    exact h

lemma reachable_inv (e : CVRPEnv) (h : Reachable e) : EnvInv e := by
  induction h with
  | init inst => exact envInv_init inst
  | step e a _ ih => exact envInv_stepEnv e a ih
  | reset e _ ih => exact envInv_reset e

/-- C6: after every step of every episode, the current load equals the
sum of the demands of the nodes recorded in current_route after
last_depot_visit_idx, and (for a non-negative capacity) never exceeds
the capacity. -/
theorem c6_load_invariant (e : CVRPEnv) (h : Reachable e)
    (hcap : 0 ≤ e.inst.capacity) :
    e.current_load =
        sumDemands e.inst (e.current_route.drop (e.last_depot_visit_idx + 1)) ∧
      e.current_load ≤ e.inst.capacity :=
  ⟨(reachable_inv e h).1, (reachable_inv e h).2.1 hcap⟩

/-- C6 witness: the invariant instantiated after one reachable step of
the 4-node scenario, where the load is 3 = demand of customer 1. -/
theorem c6_load_invariant_witness :
    (0 : ℚ) ≤ scenA.inst.capacity ∧
      (scenA.current_load =
          sumDemands scenA.inst
            (scenA.current_route.drop (scenA.last_depot_visit_idx + 1)) ∧
        scenA.current_load ≤ scenA.inst.capacity) := by
  have hr : Reachable scenA := by
    rw [scen_step1.symm]
    exact Reachable.step scen0 1 (Reachable.init scenInst)
  have hcap : (0 : ℚ) ≤ scenA.inst.capacity := by
    norm_num [scenA, scenInst]
  exact ⟨hcap, c6_load_invariant scenA hr hcap⟩

/-- C7: get_valid_moves returns exactly the unvisited customers that fit
in the remaining capacity, plus the depot precisely when the vehicle is
away from the depot, at least one node was visited since the last depot
visit, and no feasible customer exists or all customers are served; in
particular the depot is never returned while the vehicle is at the
depot. -/
theorem c7_valid_moves_exact (e : CVRPEnv) (a : Nat) (h : Reachable e) :
    (a ∈ e.get_valid_moves ↔
      ((a ∈ e.unvisited ∧
          e.current_load + e.inst.demand a ≤ e.inst.capacity) ∨
        (a = e.inst.depot_id ∧ e.current_node ≠ e.inst.depot_id ∧
          0 < e.nodes_visited_since_depot ∧
          (e.feasibleCustomers = [] ∨ e.unvisited = [])))) ∧
    (e.current_node = e.inst.depot_id →
      e.inst.depot_id ∉ e.get_valid_moves) := by
  have hD := (reachable_inv e h).2.2.2
  constructor
  · rw [mem_valid_moves_iff, mem_feasible_iff, can_return_iff]
  · intro hnode hmem
    rcases (mem_valid_moves_iff e _).1 hmem with hf | hr
    · exact hD ((mem_feasible_iff e _).1 hf).1
    · exact ((can_return_iff e).1 hr.2).1 hnode

/-- C7 witness: the characterisation instantiated at the fresh scenario
environment and customer 3; the vehicle is at the depot, and the depot
is not among the returned moves. -/
theorem c7_valid_moves_exact_witness :
    (3 ∈ scen0.get_valid_moves ↔
      ((3 ∈ scen0.unvisited ∧
          scen0.current_load + scen0.inst.demand 3 ≤ scen0.inst.capacity) ∨
        (3 = scen0.inst.depot_id ∧ scen0.current_node ≠ scen0.inst.depot_id ∧
          0 < scen0.nodes_visited_since_depot ∧
          (scen0.feasibleCustomers = [] ∨ scen0.unvisited = [])))) ∧
    (scen0.current_node = scen0.inst.depot_id →
      scen0.inst.depot_id ∉ scen0.get_valid_moves) :=
  c7_valid_moves_exact scen0 3 (Reachable.init scenInst)

/-! Association-list lemmas. -/

section ALemmas

variable {κ β : Type} [DecidableEq κ]

lemma alookup_cons (p : κ × β) (l : List (κ × β)) (k : κ) :
    alookup (p :: l) k = if p.1 = k then some p.2 else alookup l k := rfl

lemma areplace_cons (p : κ × β) (l : List (κ × β)) (k : κ) (b : β) :
    areplace (p :: l) k b =
      (if p.1 = k then (k, b) else p) :: areplace l k b := rfl

lemma alookup_append_of_none (l1 l2 : List (κ × β)) (k : κ)
    (h : alookup l1 k = none) : alookup (l1 ++ l2) k = alookup l2 k := by
  induction l1 with
  | nil => rfl
  | cons p l ih =>
    rw [alookup_cons] at h
    rw [List.cons_append, alookup_cons]
    by_cases hk : p.1 = k
    · rw [if_pos hk] at h
      exact absurd h (by simp)
    · rw [if_neg hk] at h
      rw [if_neg hk]
      exact ih h

lemma alookup_append_of_some (l1 l2 : List (κ × β)) (k : κ) (b : β)
    (h : alookup l1 k = some b) : alookup (l1 ++ l2) k = some b := by
  induction l1 with
  | nil => exact absurd h (by simp [alookup])
  | cons p l ih =>
    rw [alookup_cons] at h
    rw [List.cons_append, alookup_cons]
    by_cases hk : p.1 = k
    · rw [if_pos hk] at h
      rw [if_pos hk]
      exact h
    · rw [if_neg hk] at h
      rw [if_neg hk]
      exact ih h

lemma alookup_areplace_self (l : List (κ × β)) (k : κ) (b : β) :
    alookup (areplace l k b) k = (alookup l k).map (fun _ => b) := by
  induction l with
  | nil => rfl
  | cons p l ih =>
    by_cases hk : p.1 = k
    · simp [areplace_cons, alookup_cons, hk]
    · simp [areplace_cons, alookup_cons, hk, ih]

lemma alookup_areplace_ne (l : List (κ × β)) (k k2 : κ) (b : β)
    (h : k2 ≠ k) : alookup (areplace l k b) k2 = alookup l k2 := by
  induction l with
  | nil => rfl
  | cons p l ih =>
    by_cases hk : p.1 = k
    · simp [areplace_cons, alookup_cons, hk, ih, Ne.symm h]
    · by_cases hk2 : p.1 = k2
      · simp [areplace_cons, alookup_cons, hk, hk2, h]
      · simp [areplace_cons, alookup_cons, hk, hk2, ih]

lemma alookup_upsert_self (l : List (κ × β)) (k : κ) (b : β) :
    alookup (upsert l k b) k = some b := by
  unfold upsert
  cases he : alookup l k with
  | some m =>
    rw [if_pos (show (some m).isSome = true from rfl),
      alookup_areplace_self, he]
    rfl
  | none =>
    rw [if_neg (show ¬ (none : Option β).isSome = true by simp),
      alookup_append_of_none _ _ _ he]
    simp [alookup_cons]

lemma alookup_upsert_ne (l : List (κ × β)) (k k2 : κ) (b : β)
    (h : k2 ≠ k) : alookup (upsert l k b) k2 = alookup l k2 := by
  unfold upsert
  cases he : alookup l k with
  | some m =>
    rw [if_pos (show (some m).isSome = true from rfl)]
    exact alookup_areplace_ne _ _ _ _ h
  | none =>
    rw [if_neg (show ¬ (none : Option β).isSome = true by simp)]
    cases he2 : alookup l k2 with
    | some v => exact alookup_append_of_some _ _ _ _ he2
    | none =>
      have h1 : alookup ([(k, b)] : List (κ × β)) k2 = none := by
        simp [alookup_cons, alookup, Ne.symm h]
      rw [alookup_append_of_none _ _ _ he2, h1]

end ALemmas

/-! Lemmas about the Q-table operations of the agent. -/

section AgentLemmas

variable {σ α : Type} [DecidableEq σ] [DecidableEq α]

lemma alookup_ensureState_self (t : QTable σ α) (s : σ) :
    alookup (ensureState t s) s = some (stateRow t s) := by
  unfold ensureState stateRow
  cases he : alookup t s with
  | some m =>
    rw [if_pos (show (some m).isSome = true from rfl), he]
    rfl
  | none =>
    rw [if_neg (show ¬ (none : Option (List (α × ℚ))).isSome = true by simp),
      alookup_append_of_none _ _ _ he]
    simp [alookup_cons]

lemma alookup_ensureState_ne (t : QTable σ α) (s x : σ) (h : x ≠ s) :
    alookup (ensureState t s) x = alookup t x := by
  unfold ensureState
  cases he : alookup t s with
  | some m =>
    rw [if_pos (show (some m).isSome = true from rfl)]
  | none =>
    rw [if_neg (show ¬ (none : Option (List (α × ℚ))).isSome = true by simp)]
    cases he2 : alookup t x with
    | some v => exact alookup_append_of_some _ _ _ _ he2
    | none =>
      have h1 : alookup ([(s, [])] : QTable σ α) x = none := by
        simp [alookup_cons, alookup, Ne.symm h]
      rw [alookup_append_of_none _ _ _ he2, h1]

lemma stateRow_ensureState (t : QTable σ α) (s : σ) :
    stateRow (ensureState t s) s = stateRow t s := by
  rw [stateRow, alookup_ensureState_self]
  rfl

lemma qlookup_eq_row (t : QTable σ α) (s : σ) (a : α) :
    qlookup t s a = alookup (stateRow t s) a := by
  unfold qlookup stateRow
  cases he : alookup t s with
  | some m => rfl
  | none => rfl

lemma get_q_value_snd (t : QTable σ α) (s : σ) (a : α) :
    (get_q_value t s a).2 = qlookupOr0 t s a := by
  unfold get_q_value
  rw [stateRow_ensureState, qlookupOr0, qlookup_eq_row]
  cases hma : alookup (stateRow t s) a with
  | some v => rfl
  | none => rfl

lemma qlookup_get_q_value_fst (t : QTable σ α) (s : σ) (a : α) (x : σ) (y : α) :
    qlookup (get_q_value t s a).1 x y =
      if x = s ∧ y = a ∧ qlookup t s a = none then some 0
      else qlookup t x y := by
  unfold get_q_value
  rw [stateRow_ensureState]
  cases hma : alookup (stateRow t s) a with
  | some v =>
    have hq : qlookup t s a = some v := by rw [qlookup_eq_row, hma]
    rw [if_neg (by simp [hq])]
    by_cases hx : x = s
    · subst hx
      show (alookup (ensureState t x) x).bind (fun m => alookup m y) =
        qlookup t x y
      rw [alookup_ensureState_self, qlookup_eq_row]
      rfl
    · show (alookup (ensureState t s) x).bind (fun m => alookup m y) =
        qlookup t x y
      rw [alookup_ensureState_ne t s x hx]
      rfl
  | none =>
    have hq : qlookup t s a = none := by rw [qlookup_eq_row, hma]
    by_cases hx : x = s
    · subst hx
      show (alookup (upsert (ensureState t x) x (stateRow t x ++ [(a, 0)])) x).bind
        (fun m => alookup m y) = _
      rw [alookup_upsert_self]
      show alookup (stateRow t x ++ [(a, 0)]) y = _
      by_cases hy : y = a
      · subst hy
        rw [if_pos ⟨rfl, rfl, hq⟩, alookup_append_of_none _ _ _ hma]
        simp [alookup_cons]
      · rw [if_neg (fun hc => hy hc.2.1)]
        rw [qlookup_eq_row]
        cases hw : alookup (stateRow t x) y with
        | some w => rw [alookup_append_of_some _ _ _ _ hw]
        | none =>
          rw [alookup_append_of_none _ _ _ hw]
          simp [alookup_cons, alookup, Ne.symm hy]
    · show (alookup (upsert (ensureState t s) s (stateRow t s ++ [(a, 0)])) x).bind
        (fun m => alookup m y) = _
      rw [alookup_upsert_ne _ _ _ _ hx, alookup_ensureState_ne t s x hx,
        if_neg (fun hc => hx hc.1)]
      rfl

lemma qlookupOr0_get_q_value_fst (t : QTable σ α) (s : σ) (a : α)
    (x : σ) (y : α) :
    qlookupOr0 (get_q_value t s a).1 x y = qlookupOr0 t x y := by
  rw [qlookupOr0, qlookup_get_q_value_fst]
  by_cases hc : x = s ∧ y = a ∧ qlookup t s a = none
  · rw [if_pos hc, qlookupOr0, hc.1, hc.2.1, hc.2.2]
    rfl
  · rw [if_neg hc, qlookupOr0]

lemma qlookup_get_pres (t : QTable σ α) (s : σ) (a : α) (x : σ) (y : α)
    (v : ℚ) (h : qlookup t x y = some v) :
    qlookup (get_q_value t s a).1 x y = some v := by
  rw [qlookup_get_q_value_fst]
  by_cases hc : x = s ∧ y = a ∧ qlookup t s a = none
  · exfalso
    rw [hc.1, hc.2.1] at h
    rw [hc.2.2] at h
    exact absurd h (by simp)
  · rw [if_neg hc]
    exact h

lemma qlookup_get_new (t : QTable σ α) (s : σ) (a : α) (x : σ) (y : α)
    (v : ℚ) (h : qlookup (get_q_value t s a).1 x y = some v) :
    qlookup t x y = some v ∨
      (qlookup t x y = none ∧ x = s ∧ y = a ∧ v = 0) := by
  rw [qlookup_get_q_value_fst] at h
  by_cases hc : x = s ∧ y = a ∧ qlookup t s a = none
  · rw [if_pos hc] at h
    refine Or.inr ⟨?_, hc.1, hc.2.1, (Option.some.inj h).symm⟩
    rw [hc.1, hc.2.1]
    exact hc.2.2
  · rw [if_neg hc] at h
    exact Or.inl h

lemma readMany_fst_Or0 (t : QTable σ α) (s : σ) (l : List α) (x : σ) (y : α) :
    qlookupOr0 (readMany t s l).1 x y = qlookupOr0 t x y := by
  induction l generalizing t with
  | nil => rfl
  | cons a rest ih =>
    simp only [readMany]
    rw [ih, qlookupOr0_get_q_value_fst]

lemma readMany_snd (t : QTable σ α) (s : σ) (l : List α) :
    (readMany t s l).2 = l.map (fun b => qlookupOr0 t s b) := by
  induction l generalizing t with
  | nil => rfl
  | cons a rest ih =>
    simp only [readMany, List.map_cons]
    congr 1
    · exact get_q_value_snd t s a
    · rw [ih]
      have he : (fun b => qlookupOr0 (get_q_value t s a).1 s b) =
          fun b => qlookupOr0 t s b :=
        funext (fun b => qlookupOr0_get_q_value_fst t s a s b)
      rw [he]

lemma readMany_pres (t : QTable σ α) (s : σ) (l : List α) (x : σ) (y : α)
    (v : ℚ) (h : qlookup t x y = some v) :
    qlookup (readMany t s l).1 x y = some v := by
  induction l generalizing t with
  | nil => exact h
  | cons a rest ih =>
    simp only [readMany]
    exact ih _ (qlookup_get_pres _ _ _ _ _ _ h)

lemma readMany_new (t : QTable σ α) (s : σ) (l : List α) (x : σ) (y : α)
    (v : ℚ) (h : qlookup (readMany t s l).1 x y = some v) :
    qlookup t x y = some v ∨
      (qlookup t x y = none ∧ x = s ∧ y ∈ l ∧ v = 0) := by
  induction l generalizing t with
  | nil => exact Or.inl h
  | cons a rest ih =>
    simp only [readMany] at h
    rcases ih _ h with h1 | ⟨hn, hx, hy, hv⟩
    · rcases qlookup_get_new _ _ _ _ _ _ h1 with h2 | ⟨hn, hx, hy, hv⟩
      · exact Or.inl h2
      · exact Or.inr ⟨hn, hx, by simp [hy], hv⟩
    · have h3 := qlookup_get_q_value_fst t s a x y
      rw [hn] at h3
      by_cases hc : x = s ∧ y = a ∧ qlookup t s a = none
      · rw [if_pos hc] at h3
        exact absurd h3.symm (by simp)
      · rw [if_neg hc] at h3
        exact Or.inr ⟨h3.symm, hx, by simp [hy], hv⟩

lemma qlookup_writeQ_self (t : QTable σ α) (s : σ) (a : α) (v : ℚ) :
    qlookup (writeQ t s a v) s a = some v := by
  unfold writeQ
  show (alookup (upsert (ensureState t s) s
      (upsert (stateRow (ensureState t s) s) a v)) s).bind
    (fun m => alookup m a) = some v
  rw [alookup_upsert_self]
  exact alookup_upsert_self _ _ _

lemma qlookup_writeQ_ne (t : QTable σ α) (s : σ) (a : α) (v : ℚ)
    (x : σ) (y : α) (h : ¬ (x = s ∧ y = a)) :
    qlookup (writeQ t s a v) x y = qlookup t x y := by
  unfold writeQ
  by_cases hx : x = s
  · subst hx
    have hy : y ≠ a := fun hy => h ⟨rfl, hy⟩
    show (alookup (upsert (ensureState t x) x
        (upsert (stateRow (ensureState t x) x) a v)) x).bind
      (fun m => alookup m y) = qlookup t x y
    rw [alookup_upsert_self]
    show alookup (upsert (stateRow (ensureState t x) x) a v) y = qlookup t x y
    rw [alookup_upsert_ne _ _ _ _ hy, stateRow_ensureState]
    exact (qlookup_eq_row t x y).symm
  · show (alookup (upsert (ensureState t s) s
        (upsert (stateRow (ensureState t s) s) a v)) x).bind
      (fun m => alookup m y) = qlookup t x y
    rw [alookup_upsert_ne _ _ _ _ hx, alookup_ensureState_ne t s x hx]
    rfl

lemma bootTable_Or0 (t : QTable σ α) (s2 : σ) (moves2 : List α)
    (x : σ) (y : α) :
    qlookupOr0 (bootTable t s2 moves2) x y = qlookupOr0 t x y := by
  unfold bootTable
  split
  · rfl
  · exact readMany_fst_Or0 _ _ _ _ _

lemma bootMax_eq_bootstrapOf (t : QTable σ α) (s2 : σ) (moves2 : List α) :
    bootMax t s2 moves2 = bootstrapOf t s2 moves2 := by
  unfold bootMax bootstrapOf
  cases moves2 with
  | nil => rfl
  | cons a rest => simp [readMany_snd]

lemma update_Or0_self (ag : QLearningAgent σ α) (s : σ) (a : α)
    (reward : ℚ) (s2 : σ) (moves2 : List α) :
    qlookupOr0 (update ag s a reward s2 moves2).q_table s a =
      qlookupOr0 ag.q_table s a +
        ag.lr * (reward + ag.gamma * bootstrapOf ag.q_table s2 moves2 -
          qlookupOr0 ag.q_table s a) := by
  show qlookupOr0 (writeQ (get_q_value (bootTable ag.q_table s2 moves2) s a).1
      s a _) s a = _
  rw [qlookupOr0, qlookup_writeQ_self]
  show (get_q_value (bootTable ag.q_table s2 moves2) s a).2 +
      ag.lr * (reward + ag.gamma * bootMax ag.q_table s2 moves2 -
        (get_q_value (bootTable ag.q_table s2 moves2) s a).2) = _
  rw [get_q_value_snd, bootTable_Or0, bootMax_eq_bootstrapOf]

lemma update_Or0_ne (ag : QLearningAgent σ α) (s : σ) (a : α)
    (reward : ℚ) (s2 : σ) (moves2 : List α) (x : σ) (y : α)
    (h : ¬ (x = s ∧ y = a)) :
    qlookupOr0 (update ag s a reward s2 moves2).q_table x y =
      qlookupOr0 ag.q_table x y := by
  show qlookupOr0 (writeQ (get_q_value (bootTable ag.q_table s2 moves2) s a).1
      s a _) x y = _
  rw [qlookupOr0, qlookup_writeQ_ne _ _ _ _ _ _ h]
  show qlookupOr0 (get_q_value (bootTable ag.q_table s2 moves2) s a).1 x y = _
  rw [qlookupOr0_get_q_value_fst, bootTable_Or0]

lemma updateIter_lr (ag : QLearningAgent σ α) (s : σ) (a : α) (reward : ℚ)
    (s2 : σ) (moves2 : List α) (n : Nat) :
    (updateIter ag s a reward s2 moves2 n).lr = ag.lr := by
  induction n with
  | zero => rfl
  | succ n ih => exact ih

lemma updateIter_gamma (ag : QLearningAgent σ α) (s : σ) (a : α) (reward : ℚ)
    (s2 : σ) (moves2 : List α) (n : Nat) :
    (updateIter ag s a reward s2 moves2 n).gamma = ag.gamma := by
  induction n with
  | zero => rfl
  | succ n ih => exact ih

lemma updateIter_Or0_frame (ag : QLearningAgent σ α) (s : σ) (a : α)
    (reward : ℚ) (s2 : σ) (mv : List α)
    (hfix : ∀ b ∈ mv, ¬ (s2 = s ∧ b = a)) (n : Nat) (b : α) (hb : b ∈ mv) :
    qlookupOr0 (updateIter ag s a reward s2 mv n).q_table s2 b =
      qlookupOr0 ag.q_table s2 b := by
  induction n with
  | zero => rfl
  | succ n ih =>
    show qlookupOr0 (update (updateIter ag s a reward s2 mv n)
        s a reward s2 mv).q_table s2 b = _
    rw [update_Or0_ne _ _ _ _ _ _ _ _ (hfix b hb), ih]

lemma updateIter_bootstrap (ag : QLearningAgent σ α) (s : σ) (a : α)
    (reward : ℚ) (s2 : σ) (mv : List α)
    (hfix : ∀ b ∈ mv, ¬ (s2 = s ∧ b = a)) (n : Nat) :
    bootstrapOf (updateIter ag s a reward s2 mv n).q_table s2 mv =
      bootstrapOf ag.q_table s2 mv := by
  unfold bootstrapOf
  split
  · rfl
  · congr 1
    refine List.map_congr_left ?_
    intro b hb
    exact updateIter_Or0_frame ag s a reward s2 mv hfix n b hb

lemma updateIter_succ_Or0 (ag : QLearningAgent σ α) (s : σ) (a : α)
    (reward : ℚ) (s2 : σ) (mv : List α)
    (hfix : ∀ b ∈ mv, ¬ (s2 = s ∧ b = a)) (n : Nat) :
    qlookupOr0 (updateIter ag s a reward s2 mv (n + 1)).q_table s a =
      qlookupOr0 (updateIter ag s a reward s2 mv n).q_table s a +
        ag.lr * (reward + ag.gamma * bootstrapOf ag.q_table s2 mv -
          qlookupOr0 (updateIter ag s a reward s2 mv n).q_table s a) := by
  show qlookupOr0 (update (updateIter ag s a reward s2 mv n)
      s a reward s2 mv).q_table s a = _
  rw [update_Or0_self, updateIter_lr, updateIter_gamma,
    updateIter_bootstrap ag s a reward s2 mv hfix n]

lemma updateIter_closed (ag : QLearningAgent σ α) (s : σ) (a : α)
    (reward : ℚ) (s2 : σ) (mv : List α)
    (hfix : ∀ b ∈ mv, ¬ (s2 = s ∧ b = a)) (n : Nat) :
    qlookupOr0 (updateIter ag s a reward s2 mv n).q_table s a -
        targetOf ag.q_table ag.gamma reward s2 mv =
      (1 - ag.lr) ^ n *
        (qlookupOr0 ag.q_table s a -
          targetOf ag.q_table ag.gamma reward s2 mv) := by
  induction n with
  | zero => rw [pow_zero, one_mul]; rfl
  | succ n ih =>
    rw [updateIter_succ_Or0 ag s a reward s2 mv hfix n]
    have h1 : qlookupOr0 (updateIter ag s a reward s2 mv n).q_table s a +
        ag.lr * (reward + ag.gamma * bootstrapOf ag.q_table s2 mv -
          qlookupOr0 (updateIter ag s a reward s2 mv n).q_table s a) -
        targetOf ag.q_table ag.gamma reward s2 mv =
      (1 - ag.lr) *
        (qlookupOr0 (updateIter ag s a reward s2 mv n).q_table s a -
          targetOf ag.q_table ag.gamma reward s2 mv) := by
      rw [targetOf]
      ring
    rw [h1, ih, pow_succ]
    ring

lemma choose_action_q_table (ag : QLearningAgent σ α) (explore : Bool)
    (pick : Nat) (s : σ) (valid_moves : List α) :
    (choose_action ag explore pick s valid_moves).1.q_table =
      if valid_moves.isEmpty then ag.q_table
      else if explore then ag.q_table
      else (readMany ag.q_table s valid_moves).1 := by
  by_cases he : valid_moves.isEmpty = true
  · simp [choose_action, he]
  · rw [Bool.not_eq_true] at he
    by_cases hx : explore = true
    · simp only [choose_action, he, hx]
      cases hget : valid_moves.get? (pick % valid_moves.length) <;> simp [hget]
    · rw [Bool.not_eq_true] at hx
      simp only [choose_action, he, hx]
      generalize argmaxFirst _ = o
      cases o <;> rfl

/-- C9: QLearningAgent.update stores for (state, action) exactly
old + lr * (reward + gamma * bootstrap - old), the bootstrap being the
maximum estimate over next_state and its legal actions or 0 when there
are none; with a fixed bootstrap (no read pair equals the written pair)
and lr in (0, 1], iterating the update contracts the estimate
geometrically to the fixed point reward + gamma * bootstrap: exact
closed form, shrink factor (1 - lr) per application, and convergence. -/
theorem c9_update_rule_and_contraction (ag : QLearningAgent σ α) (s : σ)
    (a : α) (reward : ℚ) (s2 : σ) (mv : List α)
    (hfix : ∀ b ∈ mv, ¬ (s2 = s ∧ b = a))
    (hlr0 : 0 < ag.lr) (hlr1 : ag.lr ≤ 1) :
    (qlookupOr0 (update ag s a reward s2 mv).q_table s a =
        qlookupOr0 ag.q_table s a +
          ag.lr * (reward + ag.gamma * bootstrapOf ag.q_table s2 mv -
            qlookupOr0 ag.q_table s a)) ∧
    (∀ n, qlookupOr0 (updateIter ag s a reward s2 mv n).q_table s a -
          targetOf ag.q_table ag.gamma reward s2 mv =
        (1 - ag.lr) ^ n *
          (qlookupOr0 ag.q_table s a -
            targetOf ag.q_table ag.gamma reward s2 mv)) ∧
    (∀ n, |qlookupOr0 (updateIter ag s a reward s2 mv (n + 1)).q_table s a -
          targetOf ag.q_table ag.gamma reward s2 mv| =
        (1 - ag.lr) *
          |qlookupOr0 (updateIter ag s a reward s2 mv n).q_table s a -
            targetOf ag.q_table ag.gamma reward s2 mv|) ∧
    (∀ ε : ℚ, 0 < ε → ∃ N, ∀ n, N ≤ n →
        |qlookupOr0 (updateIter ag s a reward s2 mv n).q_table s a -
          targetOf ag.q_table ag.gamma reward s2 mv| ≤ ε) := by
  have h0 : (0 : ℚ) ≤ 1 - ag.lr := by linarith
  have hclosed := updateIter_closed ag s a reward s2 mv hfix
  refine ⟨update_Or0_self ag s a reward s2 mv, hclosed, fun n => ?_, ?_⟩
  · rw [hclosed (n + 1), hclosed n, pow_succ, abs_mul, abs_mul, abs_mul,
      abs_of_nonneg h0, abs_of_nonneg (pow_nonneg h0 n)]
    ring
  · intro ε hε
    by_cases hc : qlookupOr0 ag.q_table s a -
        targetOf ag.q_table ag.gamma reward s2 mv = 0
    · refine ⟨0, fun n _ => ?_⟩
      rw [hclosed n, hc, mul_zero, abs_zero]
      exact le_of_lt hε
    · have hcpos : 0 < |qlookupOr0 ag.q_table s a -
          targetOf ag.q_table ag.gamma reward s2 mv| := abs_pos.2 hc
      obtain ⟨N, hN⟩ := exists_pow_lt_of_lt_one (div_pos hε hcpos)
        (show 1 - ag.lr < 1 by linarith)
      refine ⟨N, fun n hn => ?_⟩
      rw [hclosed n, abs_mul, abs_of_nonneg (pow_nonneg h0 n)]
      have h2 : (1 - ag.lr) ^ n ≤ (1 - ag.lr) ^ N :=
        pow_le_pow_of_le_one h0 (by linarith) hn
      calc (1 - ag.lr) ^ n *
            |qlookupOr0 ag.q_table s a -
              targetOf ag.q_table ag.gamma reward s2 mv| ≤
          (1 - ag.lr) ^ N *
            |qlookupOr0 ag.q_table s a -
              targetOf ag.q_table ag.gamma reward s2 mv| :=
            mul_le_mul_of_nonneg_right h2 (abs_nonneg _)
        _ ≤ (ε / |qlookupOr0 ag.q_table s a -
              targetOf ag.q_table ag.gamma reward s2 mv|) *
            |qlookupOr0 ag.q_table s a -
              targetOf ag.q_table ag.gamma reward s2 mv| :=
            mul_le_mul_of_nonneg_right (le_of_lt hN) (abs_nonneg _)
        _ = ε := div_mul_cancel₀ ε (ne_of_gt hcpos)

/-- C9 witness: the update rule and the contraction instantiated for the
concrete agent (learning rate 1/2) on a terminal transition (no legal
next actions, bootstrap 0). -/
theorem c9_update_rule_and_contraction_witness :
    (∀ b ∈ ([] : List Nat), ¬ ((2 : Nat) = 1 ∧ b = 5)) ∧
    (0 : ℚ) < agW.lr ∧ agW.lr ≤ 1 ∧
    ((qlookupOr0 (update agW 1 5 10 2 []).q_table 1 5 =
        qlookupOr0 agW.q_table 1 5 +
          agW.lr * (10 + agW.gamma * bootstrapOf agW.q_table 2 [] -
            qlookupOr0 agW.q_table 1 5)) ∧
      (∀ n, qlookupOr0 (updateIter agW 1 5 10 2 [] n).q_table 1 5 -
            targetOf agW.q_table agW.gamma 10 2 [] =
          (1 - agW.lr) ^ n *
            (qlookupOr0 agW.q_table 1 5 -
              targetOf agW.q_table agW.gamma 10 2 [])) ∧
      (∀ n, |qlookupOr0 (updateIter agW 1 5 10 2 [] (n + 1)).q_table 1 5 -
            targetOf agW.q_table agW.gamma 10 2 []| =
          (1 - agW.lr) *
            |qlookupOr0 (updateIter agW 1 5 10 2 [] n).q_table 1 5 -
              targetOf agW.q_table agW.gamma 10 2 []|) ∧
      (∀ ε : ℚ, 0 < ε → ∃ N, ∀ n, N ≤ n →
          |qlookupOr0 (updateIter agW 1 5 10 2 [] n).q_table 1 5 -
            targetOf agW.q_table agW.gamma 10 2 []| ≤ ε)) := by
  have hfix : ∀ b ∈ ([] : List Nat), ¬ ((2 : Nat) = 1 ∧ b = 5) := by simp
  have h0 : (0 : ℚ) < agW.lr := by norm_num [agW]
  have h1 : agW.lr ≤ 1 := by norm_num [agW]
  exact ⟨hfix, h0, h1,
    c9_update_rule_and_contraction agW 1 5 10 2 [] hfix h0 h1⟩

/-- C10: choose_action never changes a stored Q-value: every stored
entry keeps its value, and any entry present afterwards that was not
present before is a default-0 entry for the queried state and one of the
valid moves (inserted by the get_q_value reads); the anti-repetition
penalty touches only the temporary dictionary. -/
theorem c10_choose_action_frame (ag : QLearningAgent σ α) (explore : Bool)
    (pick : Nat) (s : σ) (valid_moves : List α) (hne : valid_moves ≠ []) :
    (∀ x y v, qlookup ag.q_table x y = some v →
        qlookup (choose_action ag explore pick s valid_moves).1.q_table x y =
          some v) ∧
    (∀ x y v,
        qlookup (choose_action ag explore pick s valid_moves).1.q_table x y =
          some v →
        qlookup ag.q_table x y = some v ∨
          (qlookup ag.q_table x y = none ∧ x = s ∧ y ∈ valid_moves ∧
            v = 0)) := by
  rw [choose_action_q_table]
  have he : valid_moves.isEmpty = false := by
    cases valid_moves with
    | nil => exact absurd rfl hne
    | cons a l => rfl
  rw [he]
  cases explore with
  | true =>
    simp only [Bool.false_eq_true, if_false, if_true]
    exact ⟨fun x y v h => h, fun x y v h => Or.inl h⟩
  | false =>
    simp only [Bool.false_eq_true, if_false]
    exact ⟨fun x y v h => readMany_pres _ _ _ _ _ _ h,
      fun x y v h => readMany_new _ _ _ _ _ _ h⟩

/-- C10 witness: with one stored entry (state 2, action 9, value 5),
exploiting over the valid moves [4, 5] keeps that stored value intact. -/
theorem c10_choose_action_frame_witness :
    (([4, 5] : List Nat) ≠ []) ∧
      qlookup ag10.q_table 2 9 = some 5 ∧
      qlookup (choose_action ag10 false 0 1 [4, 5]).1.q_table 2 9 = some 5 := by
  have hne : ([4, 5] : List Nat) ≠ [] := by decide
  have hstored : qlookup ag10.q_table 2 9 = some 5 := by
    norm_num [ag10, agW, qlookup, alookup]
  exact ⟨hne, hstored,
    (c10_choose_action_frame ag10 false 0 1 [4, 5] hne).1 2 9 5 hstored⟩

end AgentLemmas

end CVRPSpec
